import Mathlib

/-!
Shallow embedding of the game-hub repository's landing-resolution and payout
pipeline: the chip ledger (src/js/chip-manager.js) and the Plinko board
layout, landing resolver and round controller (src/games/plinko/plinko.js).
Amounts handed to the ledger are modelled as exact rationals; the stored
balance is a natural number, matching the clamp-to-nonnegative-integer write
path of the source.
-/

namespace GameHub

/-! ### Ledger (src/js/chip-manager.js) -/

/-- Starting balance, from the INITIAL_BALANCE constant. -/
def INITIAL_BALANCE : ℕ := 10000

/-- The value stored by setBalance: Math.max(0, Math.floor(amount)). -/
def setBalanceValue (amount : ℚ) : ℕ := (max 0 ⌊amount⌋).toNat

/-- setBalance as observed by callers: the returned/stored value together
with the list of balance-changed notifications it dispatches (the source
dispatches exactly one, carrying the stored value). -/
def setBalanceRun (amount : ℚ) : ℕ × List ℕ :=
  (setBalanceValue amount, [setBalanceValue amount])

/-- deduct(amount): if the current balance is below the amount, return
false and leave the balance; otherwise store balance - amount via
setBalance and return true. -/
def deduct (amount : ℚ) (balance : ℕ) : Bool × ℕ :=
  if (balance : ℚ) < amount then (false, balance)
  else (true, setBalanceValue ((balance : ℚ) - amount))

/-- award(amount): store balance + amount via setBalance. -/
def award (amount : ℚ) (balance : ℕ) : ℕ :=
  setBalanceValue ((balance : ℚ) + amount)

/-- canAfford(amount): balance at least the amount, no mutation. -/
def canAfford (amount : ℚ) (balance : ℕ) : Bool :=
  decide ((amount : ℚ) ≤ (balance : ℚ))

/-! ### Board layout (src/games/plinko/plinko.js, createPegs) -/

/-- The configuration constants read by the Plinko module. -/
structure PlinkoConfig where
  rows : ℕ
  pegGap : ℚ
  rowGap : ℚ
  canvasWidth : ℚ
  ballDropVariance : ℚ
  multipliers : List ℚ
deriving DecidableEq

/-- The shipped CONFIG object. -/
def CONFIG : PlinkoConfig :=
  { rows := 12
    pegGap := 35
    rowGap := 30
    canvasWidth := 500
    ballDropVariance := 15
    multipliers := [10, 3, 3/2, 6/5, 1, 1/2, 3/10, 1/2, 1, 6/5, 3/2, 3, 10] }

/-- Pegs placed in row r of the peg loop: pegsInRow = row + 3. -/
def pegsInRow (row : ℕ) : ℕ := row + 3

/-- The peg-count value the bucket construction uses: CONFIG.rows + 3. -/
def finalRowPegs (cfg : PlinkoConfig) : ℕ := cfg.rows + 3

/-- Left x of the bucket peg row: centerX - finalRowWidth / 2. -/
def finalStartX (cfg : PlinkoConfig) : ℚ :=
  cfg.canvasWidth / 2 - ((finalRowPegs cfg - 1 : ℕ) : ℚ) * cfg.pegGap / 2

/-- One bucket interval, as pushed onto bucketPositions. -/
structure Bucket where
  left : ℚ
  right : ℚ
  center : ℚ
deriving DecidableEq

/-- The bucket pushed at loop index i of the bucketPositions loop. -/
def bucketAt (cfg : PlinkoConfig) (i : ℕ) : Bucket :=
  let leftBound : ℚ :=
    if i = 0 then 0
    else finalStartX cfg + ((i : ℚ) - 1) * cfg.pegGap + cfg.pegGap / 2
  let rightBound : ℚ :=
    if i = finalRowPegs cfg then cfg.canvasWidth
    else finalStartX cfg + (i : ℚ) * cfg.pegGap - cfg.pegGap / 2
  { left := leftBound, right := rightBound, center := (leftBound + rightBound) / 2 }

/-- bucketPositions: the loop runs i = 0 .. finalRowPegs inclusive. -/
def bucketPositions (cfg : PlinkoConfig) : List Bucket :=
  (List.range (finalRowPegs cfg + 1)).map (bucketAt cfg)

/-! ### Landing resolver (src/games/plinko/plinko.js, handleBallLanding) -/

/-- The loop condition: x >= bucket.left && x < bucket.right. -/
def hitsBucket (x : ℚ) (b : Bucket) : Prop := b.left ≤ x ∧ x < b.right

instance (x : ℚ) (b : Bucket) : Decidable (hitsBucket x b) :=
  inferInstanceAs (Decidable (_ ∧ _))

/-- The scan of the resolver loop: index of the first bucket containing x,
if any (the loop breaks at the first hit). -/
def scanBuckets (x : ℚ) : List Bucket → Option ℕ
  | [] => none
  | b :: rest =>
      if hitsBucket x b then some 0
      else (scanBuckets x rest).map (· + 1)

/-- bucketIndex after the loop: it is initialised to 0 and only overwritten
at the first hit, so a scan with no hit leaves 0. -/
def resolveBucket (bs : List Bucket) (x : ℚ) : ℕ :=
  (scanBuckets x bs).getD 0

/-- multiplierIndex = Math.min(bucketIndex, CONFIG.multipliers.length - 1). -/
def multiplierIndex (cfg : PlinkoConfig) (bucketIndex : ℕ) : ℕ :=
  min bucketIndex (cfg.multipliers.length - 1)

/-- The multiplier looked up for a landing position x. -/
def multiplierAt (cfg : PlinkoConfig) (x : ℚ) : ℚ :=
  cfg.multipliers.getD (multiplierIndex cfg (resolveBucket (bucketPositions cfg) x)) 0

/-- winAmount = Math.floor(betAmount * multiplier). -/
def winAmount (bet : ℕ) (m : ℚ) : ℤ := ⌊(bet : ℚ) * m⌋

/-- adjustBet(delta): value = Math.max(10, Math.min(10000, value + delta)). -/
def adjustBet (value delta : ℤ) : ℤ := max 10 (min 10000 (value + delta))

/-! ### Round controller (src/games/plinko/plinko.js, module state and handlers)

The module state is the balls array, the isDropping flag and the chip
balance.  The cooperative single-threaded schedule is modelled as a list of
events folded over the state: a dropBall call, a collisionStart event for a
ball and the bottom sensor (land), the 500 ms removal callback scheduled by
handleBallLanding (retire), and the 300 ms re-enable check scheduled by
dropBall (reenable). -/

/-- The per-ball fields the pipeline reads: ball.betAmount and ball.landed. -/
structure BallState where
  bet : ℕ
  landed : Bool
deriving DecidableEq

/-- The module-level mutable state of plinko.js together with the ledger. -/
structure GameState where
  balance : ℕ
  balls : List BallState
  isDropping : Bool
deriving DecidableEq

/-- The discrete callbacks that mutate the state. -/
inductive GameEvent where
  | drop (bet : ℤ)
  | land (i : ℕ) (x : ℚ)
  | retire (i : ℕ)
  | reenable

/-- dropBall: bail out while isDropping; reject bets below 10; reject when
canAfford fails; otherwise deduct the bet, set isDropping, and push a fresh
ball carrying the wager with landed = false. -/
def dropStep (s : GameState) (bet : ℤ) : GameState :=
  if s.isDropping then s
  else if bet < 10 then s
  else if canAfford (bet : ℚ) s.balance = false then s
  else
    { balance := (deduct (bet : ℚ) s.balance).2
      balls := s.balls ++ [{ bet := bet.toNat, landed := false }]
      isDropping := true }

/-- collisionStart for ball i and the bottom sensor: guarded by the landed
flag; the first qualifying event sets landed and runs handleBallLanding,
which resolves the bucket at the ball's x, clamps the multiplier index and
awards Math.floor(betAmount * multiplier). -/
def landStep (s : GameState) (i : ℕ) (x : ℚ) : GameState :=
  match s.balls.get? i with
  | none => s
  | some b =>
      if b.landed then s
      else
        { balance := award ((winAmount b.bet (multiplierAt CONFIG x) : ℤ) : ℚ) s.balance
          balls := s.balls.set i { bet := b.bet, landed := true }
          isDropping := s.isDropping }

/-- The removal callback handleBallLanding schedules for a landed ball:
drop it from the array; if the array became empty, clear isDropping. -/
def retireStep (s : GameState) (i : ℕ) : GameState :=
  match s.balls.get? i with
  | none => s
  | some b =>
      if b.landed then
        let balls' := s.balls.eraseIdx i
        { balance := s.balance
          balls := balls'
          isDropping := if balls' = [] then false else s.isDropping }
      else s

/-- The 300 ms callback dropBall schedules: clear isDropping while fewer
than 5 balls are in the array. -/
def reenableStep (s : GameState) : GameState :=
  if s.balls.length < 5 then { s with isDropping := false } else s

/-- One event of the cooperative schedule. -/
def step (s : GameState) : GameEvent → GameState
  | .drop bet => dropStep s bet
  | .land i x => landStep s i x
  | .retire i => retireStep s i
  | .reenable => reenableStep s

/-- A whole schedule, processed in order. -/
def run (s : GameState) (evs : List GameEvent) : GameState := List.foldl step s evs

/-- The state on page load: initial balance, no balls, button enabled. -/
def startState : GameState :=
  { balance := INITIAL_BALANCE, balls := [], isDropping := false }

/-- States the module can actually be in. -/
def Reachable (s : GameState) : Prop := ∃ evs, run startState evs = s

/-! ### Evaluation helpers for the ledger -/

theorem setBalanceValue_natCast (n : ℕ) : setBalanceValue (n : ℚ) = n := by
  simp [setBalanceValue]

theorem award_natCast (k b : ℕ) : award (k : ℚ) b = b + k := by
  rw [award, ← Nat.cast_add]
  exact setBalanceValue_natCast _

theorem deduct_le (k b : ℕ) (h : k ≤ b) : deduct (k : ℚ) b = (true, b - k) := by
  rw [deduct, if_neg (by exact_mod_cast not_lt.mpr h)]
  rw [← Nat.cast_sub h]
  rw [setBalanceValue_natCast]

theorem deduct_insufficient (amount : ℚ) (b : ℕ) (h : (b : ℚ) < amount) :
    deduct amount b = (false, b) := by
  rw [deduct, if_pos h]

/-! ### Evaluation helpers for the board layout and resolver -/

theorem bucketPositions_length (cfg : PlinkoConfig) :
    (bucketPositions cfg).length = cfg.rows + 4 := by
  simp [bucketPositions, finalRowPegs]

theorem bucketPositions_getD (cfg : PlinkoConfig) (i : ℕ) (d : Bucket)
    (h : i < finalRowPegs cfg + 1) :
    (bucketPositions cfg).getD i d = bucketAt cfg i := by
  rw [bucketPositions, List.getD, List.get?_map, List.get?_range h]
  rfl

/-- Every interval of the shipped layout is empty or inverted: the loop
writes the same midpoint formula to bucket i's left bound and to bucket
i's right bound, so interior intervals collapse and the edge intervals
invert. -/
theorem bucketAt_CONFIG_degenerate (i : ℕ) (h : i < 16) :
    (bucketAt CONFIG i).right ≤ (bucketAt CONFIG i).left := by
  interval_cases i <;>
    norm_num [bucketAt, finalStartX, finalRowPegs, CONFIG]

theorem scanBuckets_none (x : ℚ) (bs : List Bucket)
    (h : ∀ b ∈ bs, b.right ≤ b.left) : scanBuckets x bs = none := by
  induction bs with
  | nil => rfl
  | cons b rest ih =>
      have hb : ¬ hitsBucket x b := by
        rintro ⟨h1, h2⟩
        have := h b (List.mem_cons_self b rest)
        linarith
      rw [scanBuckets, if_neg hb,
        ih (fun c hc => h c (List.mem_cons_of_mem _ hc))]
      rfl

/-- Consequence of the degenerate layout: the scan never hits, so the
resolver returns its initial value 0 for every landing position. -/
theorem resolveBucket_CONFIG (x : ℚ) :
    resolveBucket (bucketPositions CONFIG) x = 0 := by
  rw [resolveBucket, scanBuckets_none]
  · rfl
  · intro b hb
    obtain ⟨i, hi, rfl⟩ := List.mem_map.mp hb
    have hi16 : i < 16 := by
      simpa [finalRowPegs, CONFIG] using List.mem_range.mp hi
    exact bucketAt_CONFIG_degenerate i hi16

theorem multiplierAt_CONFIG (x : ℚ) : multiplierAt CONFIG x = 10 := by
  rw [multiplierAt, resolveBucket_CONFIG]
  rfl

theorem winAmount_ten (bet : ℕ) : winAmount bet 10 = 10 * bet := by
  rw [winAmount,
    show ((bet : ℚ) * 10) = ((10 * bet : ℕ) : ℚ) by push_cast; ring]
  exact_mod_cast Int.floor_natCast (α := ℚ) _

/-! ### Evaluation helpers for the round controller -/

theorem dropStep_busy (s : GameState) (bet : ℤ) (h : s.isDropping = true) :
    dropStep s bet = s := by
  rw [dropStep, if_pos h]

theorem dropStep_accept (s : GameState) (bet : ℕ) (h1 : s.isDropping = false)
    (h2 : 10 ≤ bet) (h3 : bet ≤ s.balance) :
    dropStep s (bet : ℤ) =
      { balance := s.balance - bet
        balls := s.balls ++ [{ bet := bet, landed := false }]
        isDropping := true } := by
  rw [dropStep, if_neg (by simp [h1]),
    if_neg (by exact_mod_cast not_lt.mpr h2),
    if_neg (by simp [canAfford]; exact_mod_cast h3)]
  rw [show ((bet : ℤ) : ℚ) = ((bet : ℕ) : ℚ) by push_cast; ring,
    deduct_le bet s.balance h3]
  simp

theorem landStep_eval (s : GameState) (i : ℕ) (x : ℚ) (b : BallState)
    (hb : s.balls.get? i = some b) (hl : b.landed = false) :
    landStep s i x =
      { balance := s.balance + (winAmount b.bet (multiplierAt CONFIG x)).toNat
        balls := s.balls.set i { bet := b.bet, landed := true }
        isDropping := s.isDropping } := by
  rw [landStep, hb]
  simp only [hl, Bool.false_eq_true, if_false]
  have hm : (0 : ℚ) ≤ multiplierAt CONFIG x := by
    rw [multiplierAt_CONFIG]; norm_num
  have hw : (0 : ℤ) ≤ winAmount b.bet (multiplierAt CONFIG x) :=
    Int.floor_nonneg.mpr (mul_nonneg (Nat.cast_nonneg _) hm)
  have hcast : ((winAmount b.bet (multiplierAt CONFIG x) : ℤ) : ℚ)
      = (((winAmount b.bet (multiplierAt CONFIG x)).toNat : ℕ) : ℚ) := by
    have h2 := Int.toNat_of_nonneg hw
    exact_mod_cast h2.symm
  rw [hcast, award_natCast]

theorem retireStep_eval (s : GameState) (i : ℕ) (b : BallState)
    (hb : s.balls.get? i = some b) (hl : b.landed = true) :
    retireStep s i =
      { balance := s.balance
        balls := s.balls.eraseIdx i
        isDropping := if s.balls.eraseIdx i = [] then false else s.isDropping } := by
  rw [retireStep, hb]
  simp [hl]

/-! ### Claims about the board layout and the resolver -/

/-- C1: the claim says the bucket intervals partition [0, boardWidth) with
every interval non-empty and adjacent bounds equal.  On the shipped
configuration the code violates this: the first interval is inverted
(right bound -25/2 below its left bound 0), interval 1 is empty (left
bound equals right bound), there is a gap between interval 0's right bound
and interval 1's left bound, and as a consequence the resolver's scan
never hits, returning index 0 for every landing position.  Only the two
edge clamps (first left bound 0, last right bound boardWidth) hold. -/
theorem c1_buckets_not_partition :
    ((bucketPositions CONFIG).getD 0 ⟨0, 0, 0⟩).left = 0 ∧
    ((bucketPositions CONFIG).getD 15 ⟨0, 0, 0⟩).right = CONFIG.canvasWidth ∧
    ((bucketPositions CONFIG).getD 0 ⟨0, 0, 0⟩).right = -(25 / 2) ∧
    ((bucketPositions CONFIG).getD 1 ⟨0, 0, 0⟩).left
      = ((bucketPositions CONFIG).getD 1 ⟨0, 0, 0⟩).right ∧
    ((bucketPositions CONFIG).getD 0 ⟨0, 0, 0⟩).right
      < ((bucketPositions CONFIG).getD 1 ⟨0, 0, 0⟩).left ∧
    ∀ x : ℚ, resolveBucket (bucketPositions CONFIG) x = 0 := by
  have h0 : (0 : ℕ) < finalRowPegs CONFIG + 1 := by norm_num [finalRowPegs, CONFIG]
  have h1 : (1 : ℕ) < finalRowPegs CONFIG + 1 := by norm_num [finalRowPegs, CONFIG]
  have h15 : (15 : ℕ) < finalRowPegs CONFIG + 1 := by norm_num [finalRowPegs, CONFIG]
  rw [bucketPositions_getD CONFIG 0 _ h0, bucketPositions_getD CONFIG 1 _ h1,
    bucketPositions_getD CONFIG 15 _ h15]
  refine ⟨?_, ?_, ?_, ?_, ?_, resolveBucket_CONFIG⟩ <;>
    norm_num [bucketAt, finalStartX, finalRowPegs, CONFIG]

/-- C2 counterexample: the claim says the layout produces (pegs in the
final peg row) + 1 intervals, and that for the shipped configuration this
equals the multiplier-table length.  The code derives the bucket count
from CONFIG.rows + 3, one more than the actual final row's peg count
rows - 1 + 3 = 14, so it builds 16 intervals, not 15; and the multiplier
table has 13 entries, not 16. -/
theorem c2_bucket_count_counterexample :
    (bucketPositions CONFIG).length = 16 ∧
    pegsInRow (CONFIG.rows - 1) = 14 ∧
    CONFIG.multipliers.length = 13 ∧
    (bucketPositions CONFIG).length ≠ pegsInRow (CONFIG.rows - 1) + 1 ∧
    (bucketPositions CONFIG).length ≠ CONFIG.multipliers.length := by
  have hl : (bucketPositions CONFIG).length = 16 := by
    rw [bucketPositions_length]; norm_num [CONFIG]
  have hp : pegsInRow (CONFIG.rows - 1) = 14 := by norm_num [pegsInRow, CONFIG]
  have hm : CONFIG.multipliers.length = 13 := by norm_num [CONFIG]
  exact ⟨hl, hp, hm, by omega, by omega⟩

/-- C2 (amended): the layout produces rows + 4 intervals — the final peg
row's peg count plus two, since the bucket construction uses rows + 3
pegs, one more than the final row actually has; for the shipped
configuration that is 16 intervals against a 13-entry multiplier table. -/
theorem c2_bucket_count_amended (cfg : PlinkoConfig) (h : 1 ≤ cfg.rows) :
    (bucketPositions cfg).length = pegsInRow (cfg.rows - 1) + 2 ∧
    (bucketPositions CONFIG).length = 16 ∧
    CONFIG.multipliers.length = 13 := by
  refine ⟨?_, ?_, by norm_num [CONFIG]⟩
  · rw [bucketPositions_length, pegsInRow]; omega
  · rw [bucketPositions_length]; norm_num [CONFIG]

/-- C2 witness: the amended count facts at the shipped configuration. -/
theorem c2_bucket_count_amended_witness :
    (bucketPositions CONFIG).length = pegsInRow (CONFIG.rows - 1) + 2 ∧
    (bucketPositions CONFIG).length = 16 ∧
    CONFIG.multipliers.length = 13 :=
  c2_bucket_count_amended CONFIG (by norm_num [CONFIG])

theorem bucketAt_CONFIG_right_le (i : ℕ) (h : i < 16) :
    (bucketAt CONFIG i).right ≤ 600 := by
  interval_cases i <;> norm_num [bucketAt, finalStartX, finalRowPegs, CONFIG]

/-- C3 counterexample: the claim says a position to the right of every
interval clamps to the last index.  x = 600 lies at or beyond every
interval's right bound, yet the code leaves bucketIndex at its initial
value 0, the first index, not the last index 15. -/
theorem c3_resolver_counterexample :
    (∀ b ∈ bucketPositions CONFIG, b.right ≤ (600 : ℚ)) ∧
    (bucketPositions CONFIG).length - 1 = 15 ∧
    resolveBucket (bucketPositions CONFIG) 600 = 0 ∧
    resolveBucket (bucketPositions CONFIG) 600 ≠ (bucketPositions CONFIG).length - 1 := by
  have hmem : ∀ b ∈ bucketPositions CONFIG, b.right ≤ (600 : ℚ) := by
    intro b hb
    obtain ⟨i, hi, rfl⟩ := List.mem_map.mp hb
    have hi16 : i < 16 := by
      simpa [finalRowPegs, CONFIG] using List.mem_range.mp hi
    exact bucketAt_CONFIG_right_le i hi16
  have hlen : (bucketPositions CONFIG).length - 1 = 15 := by
    rw [bucketPositions_length]; norm_num [CONFIG]
  refine ⟨hmem, hlen, resolveBucket_CONFIG 600, ?_⟩
  rw [resolveBucket_CONFIG 600, hlen]
  omega

theorem scanBuckets_eq_none (x : ℚ) (bs : List Bucket)
    (h : ∀ j, ¬ hitsBucket x (bs.getD j ⟨0, 0, 0⟩)) : scanBuckets x bs = none := by
  induction bs with
  | nil => rfl
  | cons b rest ih =>
      have hb0 : ¬ hitsBucket x b := h 0
      rw [scanBuckets, if_neg hb0, ih (fun j => h (j + 1))]
      rfl

theorem scanBuckets_eq_some (x : ℚ) (bs : List Bucket) (i : ℕ)
    (hhit : hitsBucket x (bs.getD i ⟨0, 0, 0⟩))
    (hmin : ∀ j, j < i → ¬ hitsBucket x (bs.getD j ⟨0, 0, 0⟩)) :
    scanBuckets x bs = some i := by
  induction bs generalizing i with
  | nil =>
      exfalso
      obtain ⟨h1, h2⟩ := hhit
      simp only [List.getD] at h1 h2
      exact absurd (h1.trans_lt h2) (lt_irrefl _)
  | cons b rest ih =>
      cases i with
      | zero =>
          have hb0 : hitsBucket x b := hhit
          rw [scanBuckets, if_pos hb0]
      | succ n =>
          have hb0 : ¬ hitsBucket x b := hmin 0 (Nat.succ_pos n)
          have hrest : hitsBucket x (rest.getD n ⟨0, 0, 0⟩) := hhit
          rw [scanBuckets, if_neg hb0,
            ih n hrest (fun j hj => hmin (j + 1) (by omega))]
          rfl

/-- C3 (amended): the resolver returns the first index whose half-open
interval contains x; when no interval contains x it returns the initial
index 0, whichever side of the board x lies on — there is no clamp to the
last index. -/
theorem c3_resolver_amended (bs : List Bucket) (x : ℚ) (i : ℕ) :
    ((∀ j, ¬ hitsBucket x (bs.getD j ⟨0, 0, 0⟩)) → resolveBucket bs x = 0) ∧
    (hitsBucket x (bs.getD i ⟨0, 0, 0⟩) →
      (∀ j, j < i → ¬ hitsBucket x (bs.getD j ⟨0, 0, 0⟩)) →
      resolveBucket bs x = i) := by
  constructor
  · intro h
    rw [resolveBucket, scanBuckets_eq_none x bs h]
    rfl
  · intro hhit hmin
    rw [resolveBucket, scanBuckets_eq_some x bs i hhit hmin]
    rfl

/-- C3 witness: on a two-interval layout, x = 7 lies in interval 1 and not
in interval 0, and the resolver returns 1. -/
theorem c3_resolver_amended_witness :
    hitsBucket 7 (([⟨0, 5, 5/2⟩, ⟨5, 10, 15/2⟩] : List Bucket).getD 1 ⟨0, 0, 0⟩) ∧
    resolveBucket [⟨0, 5, 5/2⟩, ⟨5, 10, 15/2⟩] 7 = 1 := by
  have hhit : hitsBucket 7 (([⟨0, 5, 5/2⟩, ⟨5, 10, 15/2⟩] : List Bucket).getD 1 ⟨0, 0, 0⟩) := by
    constructor <;> norm_num
  refine ⟨hhit, (c3_resolver_amended [⟨0, 5, 5/2⟩, ⟨5, 10, 15/2⟩] 7 1).2 hhit ?_⟩
  intro j hj
  interval_cases j
  rintro ⟨h1, h2⟩
  norm_num at h1 h2

/-! ### Round-controller step lemmas and the drop-guard invariant -/

theorem step_drop_accept (s : GameState) (bet : ℤ) (v : ℕ) (hv : (v : ℤ) = bet)
    (h1 : s.isDropping = false) (h2 : 10 ≤ bet) (h3 : v ≤ s.balance) :
    step s (.drop bet) =
      { balance := s.balance - v
        balls := s.balls ++ [{ bet := v, landed := false }]
        isDropping := true } := by
  subst hv
  show dropStep s (v : ℤ) = _
  exact dropStep_accept s v h1 (by exact_mod_cast h2) h3

theorem step_reenable_lt (s : GameState) (h : s.balls.length < 5) :
    step s .reenable = { s with isDropping := false } := by
  show reenableStep s = _
  rw [reenableStep, if_pos h]

theorem step_reenable_ge (s : GameState) (h : ¬ s.balls.length < 5) :
    step s .reenable = s := by
  show reenableStep s = _
  rw [reenableStep, if_neg h]

theorem step_land_eval (s : GameState) (i : ℕ) (x : ℚ) (b : BallState)
    (hb : s.balls.get? i = some b) (hl : b.landed = false) :
    step s (.land i x) =
      { balance := s.balance + (winAmount b.bet (multiplierAt CONFIG x)).toNat
        balls := s.balls.set i { bet := b.bet, landed := true }
        isDropping := s.isDropping } := by
  show landStep s i x = _
  exact landStep_eval s i x b hb hl

theorem step_retire_eval (s : GameState) (i : ℕ) (b : BallState)
    (hb : s.balls.get? i = some b) (hl : b.landed = true) :
    step s (.retire i) =
      { balance := s.balance
        balls := s.balls.eraseIdx i
        isDropping := if s.balls.eraseIdx i = [] then false else s.isDropping } := by
  show retireStep s i = _
  exact retireStep_eval s i b hb hl

theorem length_eraseIdx_le (l : List BallState) (i : ℕ) :
    (l.eraseIdx i).length ≤ l.length := by
  induction l generalizing i with
  | nil => simp [List.eraseIdx]
  | cons a t ih =>
      cases i with
      | zero => simp [List.eraseIdx]
      | succ n =>
          simp only [List.eraseIdx, List.length_cons]
          have := ih n
          omega

/-- The isDropping flag over-approximates the in-flight count: whenever
the flag is clear, fewer than five balls are in the array.  It is the key
invariant behind the observed concurrency cap. -/
def DropGuardInv (s : GameState) : Prop := s.isDropping = false → s.balls.length ≤ 4

theorem dropGuardInv_step (s : GameState) (e : GameEvent) (h : DropGuardInv s) :
    DropGuardInv (step s e) := by
  cases e with
  | drop bet =>
      show DropGuardInv (dropStep s bet)
      rw [dropStep]
      split_ifs
      · exact h
      · exact h
      · exact h
      · intro habs
        simp at habs
  | land i x =>
      show DropGuardInv (landStep s i x)
      cases hg : s.balls.get? i with
      | none =>
          rw [show landStep s i x = s by rw [landStep, hg]]
          exact h
      | some b =>
          by_cases hl : b.landed = true
          · rw [show landStep s i x = s by rw [landStep, hg]; simp [hl]]
            exact h
          · have hl' : b.landed = false := by simpa using hl
            rw [landStep_eval s i x b hg hl']
            intro hfalse
            have h4 := h hfalse
            simpa [List.length_set] using h4
  | retire i =>
      show DropGuardInv (retireStep s i)
      cases hg : s.balls.get? i with
      | none =>
          rw [show retireStep s i = s by rw [retireStep, hg]]
          exact h
      | some b =>
          by_cases hl : b.landed = true
          · rw [retireStep_eval s i b hg hl]
            intro hfalse
            by_cases he : s.balls.eraseIdx i = []
            · simp [he]
            · have hfalse' : s.isDropping = false := by simpa [he] using hfalse
              have h4 := h hfalse'
              have hlen := length_eraseIdx_le s.balls i
              show (s.balls.eraseIdx i).length ≤ 4
              omega
          · rw [show retireStep s i = s by rw [retireStep, hg]; simp [hl]]
            exact h
  | reenable =>
      show DropGuardInv (reenableStep s)
      rw [reenableStep]
      split_ifs with h5
      · intro _
        show s.balls.length ≤ 4
        omega
      · exact h

theorem dropGuardInv_run (evs : List GameEvent) (s : GameState) (h : DropGuardInv s) :
    DropGuardInv (List.foldl step s evs) := by
  induction evs generalizing s with
  | nil => exact h
  | cons e rest ih => exact ih (step s e) (dropGuardInv_step s e h)

theorem reachable_dropGuardInv (s : GameState) (h : Reachable s) : DropGuardInv s := by
  obtain ⟨evs, rfl⟩ := h
  exact dropGuardInv_run evs startState (fun _ => by decide)

/-! ### Concrete schedules -/

/-- Five drops of 100 chips; each post-drop 300 ms check before the next
drop sees fewer than five balls and re-enables the button; the fifth
drop saturates the cap. -/
def capTrace : List GameEvent :=
  [.drop 100, .reenable, .drop 100, .reenable, .drop 100, .reenable,
   .drop 100, .reenable, .drop 100]

/-- After the saturated state: the fifth drop's 300 ms check fires (sees
five balls, leaves the flag set), then ball 0 lands at x = 250 and is
retired 500 ms later. -/
def c4Trace : List GameEvent := capTrace ++ [.reenable, .land 0 250, .retire 0]

theorem run_capTrace :
    run startState capTrace =
      { balance := 9500
        balls := [⟨100, false⟩, ⟨100, false⟩, ⟨100, false⟩, ⟨100, false⟩, ⟨100, false⟩]
        isDropping := true } := by
  have h1 : step startState (.drop 100) =
      ⟨9900, [⟨100, false⟩], true⟩ := by
    rw [step_drop_accept startState 100 100 (by decide) rfl (by decide) (by decide)]
    decide
  have h2 : step (⟨9900, [⟨100, false⟩], true⟩ : GameState) .reenable =
      ⟨9900, [⟨100, false⟩], false⟩ := by
    rw [step_reenable_lt _ (by decide)]
  have h3 : step (⟨9900, [⟨100, false⟩], false⟩ : GameState) (.drop 100) =
      ⟨9800, [⟨100, false⟩, ⟨100, false⟩], true⟩ := by
    rw [step_drop_accept _ 100 100 (by decide) rfl (by decide) (by decide)]
    decide
  have h4 : step (⟨9800, [⟨100, false⟩, ⟨100, false⟩], true⟩ : GameState) .reenable =
      ⟨9800, [⟨100, false⟩, ⟨100, false⟩], false⟩ := by
    rw [step_reenable_lt _ (by decide)]
  have h5 : step (⟨9800, [⟨100, false⟩, ⟨100, false⟩], false⟩ : GameState) (.drop 100) =
      ⟨9700, [⟨100, false⟩, ⟨100, false⟩, ⟨100, false⟩], true⟩ := by
    rw [step_drop_accept _ 100 100 (by decide) rfl (by decide) (by decide)]
    decide
  have h6 : step (⟨9700, [⟨100, false⟩, ⟨100, false⟩, ⟨100, false⟩], true⟩ : GameState)
      .reenable = ⟨9700, [⟨100, false⟩, ⟨100, false⟩, ⟨100, false⟩], false⟩ := by
    rw [step_reenable_lt _ (by decide)]
  have h7 : step (⟨9700, [⟨100, false⟩, ⟨100, false⟩, ⟨100, false⟩], false⟩ : GameState)
      (.drop 100) =
      ⟨9600, [⟨100, false⟩, ⟨100, false⟩, ⟨100, false⟩, ⟨100, false⟩], true⟩ := by
    rw [step_drop_accept _ 100 100 (by decide) rfl (by decide) (by decide)]
    decide
  have h8 : step
      (⟨9600, [⟨100, false⟩, ⟨100, false⟩, ⟨100, false⟩, ⟨100, false⟩], true⟩ : GameState)
      .reenable =
      ⟨9600, [⟨100, false⟩, ⟨100, false⟩, ⟨100, false⟩, ⟨100, false⟩], false⟩ := by
    rw [step_reenable_lt _ (by decide)]
  have h9 : step
      (⟨9600, [⟨100, false⟩, ⟨100, false⟩, ⟨100, false⟩, ⟨100, false⟩], false⟩ : GameState)
      (.drop 100) =
      ⟨9500, [⟨100, false⟩, ⟨100, false⟩, ⟨100, false⟩, ⟨100, false⟩, ⟨100, false⟩],
        true⟩ := by
    rw [step_drop_accept _ 100 100 (by decide) rfl (by decide) (by decide)]
    decide
  rw [run, capTrace]
  simp only [List.foldl_cons, List.foldl_nil]
  rw [h1, h2, h3, h4, h5, h6, h7, h8, h9]

theorem run_c4Trace :
    run startState c4Trace =
      { balance := 10500
        balls := [⟨100, false⟩, ⟨100, false⟩, ⟨100, false⟩, ⟨100, false⟩]
        isDropping := true } := by
  have hsplit : run startState c4Trace
      = List.foldl step (run startState capTrace) [.reenable, .land 0 250, .retire 0] := by
    rw [run, run, c4Trace, List.foldl_append]
  have h10 : step
      (⟨9500, [⟨100, false⟩, ⟨100, false⟩, ⟨100, false⟩, ⟨100, false⟩, ⟨100, false⟩],
        true⟩ : GameState) .reenable =
      ⟨9500, [⟨100, false⟩, ⟨100, false⟩, ⟨100, false⟩, ⟨100, false⟩, ⟨100, false⟩],
        true⟩ := by
    rw [step_reenable_ge _ (by decide)]
  have h11 : step
      (⟨9500, [⟨100, false⟩, ⟨100, false⟩, ⟨100, false⟩, ⟨100, false⟩, ⟨100, false⟩],
        true⟩ : GameState) (.land 0 250) =
      ⟨10500, [⟨100, true⟩, ⟨100, false⟩, ⟨100, false⟩, ⟨100, false⟩, ⟨100, false⟩],
        true⟩ := by
    rw [step_land_eval
      (⟨9500, [⟨100, false⟩, ⟨100, false⟩, ⟨100, false⟩, ⟨100, false⟩, ⟨100, false⟩],
        true⟩ : GameState) 0 250 ⟨100, false⟩ rfl rfl]
    rw [multiplierAt_CONFIG, winAmount_ten]
    decide
  have h12 : step
      (⟨10500, [⟨100, true⟩, ⟨100, false⟩, ⟨100, false⟩, ⟨100, false⟩, ⟨100, false⟩],
        true⟩ : GameState) (.retire 0) =
      ⟨10500, [⟨100, false⟩, ⟨100, false⟩, ⟨100, false⟩, ⟨100, false⟩], true⟩ := by
    rw [step_retire_eval
      (⟨10500, [⟨100, true⟩, ⟨100, false⟩, ⟨100, false⟩, ⟨100, false⟩, ⟨100, false⟩],
        true⟩ : GameState) 0 ⟨100, true⟩ rfl rfl]
    decide
  rw [hsplit, run_capTrace]
  simp only [List.foldl_cons, List.foldl_nil]
  rw [h10, h11, h12]

/-! ### Claims about the round controller -/

/-- C4 counterexample: the claim says a sixth drop is rejected only until
at least one of five in-flight balls settles and is retired, after which
dropping is allowed again.  After the five-drop schedule, one ball lands
and is retired, leaving four in flight — yet a further drop request is
still rejected (the state is unchanged), because the isDropping flag is
cleared only when the ball array empties or a 300 ms post-drop check sees
fewer than five balls, and no such check is pending. -/
theorem c4_cap_counterexample :
    run startState c4Trace =
      { balance := 10500
        balls := [⟨100, false⟩, ⟨100, false⟩, ⟨100, false⟩, ⟨100, false⟩]
        isDropping := true } ∧
    (run startState c4Trace).balls.length = 4 ∧
    step (run startState c4Trace) (.drop 100) = run startState c4Trace := by
  refine ⟨run_c4Trace, by rw [run_c4Trace]; rfl, ?_⟩
  rw [run_c4Trace]
  show dropStep _ 100 = _
  exact dropStep_busy _ 100 rfl

/-- C4 (amended): the rejection of drops at the cap is enforced by the
isDropping flag — the very flag that drives the button-disable heuristic,
not an independent check — and it does hold in every reachable state: with
five or more balls in flight the flag is set and any drop request leaves
the state unchanged (no debit, no ball spawned).  After saturation,
however, drops stay rejected until the in-flight array empties, not
merely until one ball is retired. -/
theorem c4_cap_amended (s : GameState) (h : Reachable s)
    (h5 : 5 ≤ s.balls.length) :
    s.isDropping = true ∧ ∀ bet : ℤ, step s (.drop bet) = s := by
  have hinv : DropGuardInv s := reachable_dropGuardInv s h
  have hd : s.isDropping = true := by
    cases hview : s.isDropping with
    | false => exact absurd (hinv hview) (by omega)
    | true => rfl
  refine ⟨hd, fun bet => ?_⟩
  show dropStep s bet = s
  exact dropStep_busy s bet hd

/-- C4 witness: the five-drop schedule reaches a state with five balls in
flight, where the flag is set and a drop of 77 chips is a no-op. -/
theorem c4_cap_amended_witness :
    (run startState capTrace).isDropping = true ∧
    step (run startState capTrace) (.drop 77) = run startState capTrace := by
  have h := c4_cap_amended (run startState capTrace) ⟨capTrace, rfl⟩
    (by rw [run_capTrace]; norm_num)
  exact ⟨h.1, h.2 77⟩

/-- C5 counterexample: the claim says a wager above the sane maximum of
10000 is rejected with no state mutation.  dropBall performs no maximum
check: after one 1000-chip ball lands in the (degenerate) 10x bucket the
balance is 19000, and a drop request of 12000 — above the claimed maximum —
is accepted: the balance is debited to 7000 and a ball is spawned. -/
theorem c5_validation_counterexample :
    run startState [.drop 1000, .land 0 250, .retire 0] =
      { balance := 19000, balls := [], isDropping := false } ∧
    step ({ balance := 19000, balls := [], isDropping := false } : GameState)
        (.drop 12000) =
      { balance := 7000, balls := [⟨12000, false⟩], isDropping := true } := by
  constructor
  · have g1 : step startState (.drop 1000) = ⟨9000, [⟨1000, false⟩], true⟩ := by
      rw [step_drop_accept startState 1000 1000 (by decide) rfl (by decide) (by decide)]
      decide
    have g2 : step (⟨9000, [⟨1000, false⟩], true⟩ : GameState) (.land 0 250) =
        ⟨19000, [⟨1000, true⟩], true⟩ := by
      rw [step_land_eval (⟨9000, [⟨1000, false⟩], true⟩ : GameState) 0 250
        ⟨1000, false⟩ rfl rfl]
      rw [multiplierAt_CONFIG, winAmount_ten]
      decide
    have g3 : step (⟨19000, [⟨1000, true⟩], true⟩ : GameState) (.retire 0) =
        ⟨19000, [], false⟩ := by
      rw [step_retire_eval (⟨19000, [⟨1000, true⟩], true⟩ : GameState) 0
        ⟨1000, true⟩ rfl rfl]
      decide
    rw [run]
    simp only [List.foldl_cons, List.foldl_nil]
    rw [g1, g2, g3]
  · rw [step_drop_accept _ 12000 12000 (by decide) rfl (by decide) (by decide)]
    decide

/-- C5 (amended): a drop request with a wager below the minimum stake 10,
or one the balance cannot cover, is rejected with no state mutation at
all; the 10000 maximum exists only as the adjustBet input-stepper clamp
(which keeps the field within [10, 10000]) and is not enforced by the
drop validation itself. -/
theorem c5_validation_amended (s : GameState) (bet : ℤ)
    (h : bet < 10 ∨ (s.balance : ℚ) < (bet : ℚ)) :
    step s (.drop bet) = s ∧
    ∀ v d : ℤ, 10 ≤ adjustBet v d ∧ adjustBet v d ≤ 10000 := by
  constructor
  · show dropStep s bet = s
    rw [dropStep]
    by_cases hd : s.isDropping = true
    · rw [if_pos hd]
    · rw [if_neg hd]
      rcases h with h | h
      · rw [if_pos h]
      · by_cases h10 : bet < 10
        · rw [if_pos h10]
        · rw [if_neg h10, if_pos ?hca]
          case hca =>
            simp only [canAfford, decide_eq_false_iff_not]
            exact not_le.mpr h
  · intro v d
    exact ⟨le_max_left _ _, max_le (by norm_num) (min_le_left _ _)⟩

/-- C5 witness: a 5-chip drop request (below the minimum stake) on the
fresh state is a no-op, and the stepper clamps 0 + 7 to the range. -/
theorem c5_validation_amended_witness :
    step startState (.drop 5) = startState ∧
    10 ≤ adjustBet 0 7 ∧ adjustBet 0 7 ≤ 10000 := by
  have h := c5_validation_amended startState 5 (Or.inl (by norm_num))
  exact ⟨h.1, h.2 0 7⟩

/-! ### Claims about settlement, the landed flag and the ledger -/

/-- C6: when a not-yet-landed ball settles, the balance is credited with
exactly the floor of wager times multiplier — integer truncation, never
more than the real product — and a 100-chip wager at a 0.3 multiplier wins
exactly 30. -/
theorem c6_payout_floor (s : GameState) (i : ℕ) (x : ℚ) (b : BallState)
    (hb : s.balls.get? i = some b) (hl : b.landed = false) :
    (step s (.land i x)).balance
      = s.balance + (⌊(b.bet : ℚ) * multiplierAt CONFIG x⌋).toNat ∧
    ((⌊(b.bet : ℚ) * multiplierAt CONFIG x⌋ : ℤ) : ℚ)
      ≤ (b.bet : ℚ) * multiplierAt CONFIG x ∧
    winAmount 100 (3 / 10) = 30 := by
  refine ⟨?_, Int.floor_le _, ?_⟩
  · rw [step_land_eval s i x b hb hl]
    rfl
  · rw [winAmount, show ((100 : ℕ) : ℚ) * (3 / 10) = ((30 : ℤ) : ℚ) by norm_num]
    exact Int.floor_intCast 30

/-- C6 witness: a single 100-chip ball settling at x = 250 on the shipped
layout credits exactly the floored product. -/
theorem c6_payout_floor_witness :
    (step (⟨0, [⟨100, false⟩], true⟩ : GameState) (.land 0 250)).balance
      = 0 + (⌊((100 : ℕ) : ℚ) * multiplierAt CONFIG 250⌋).toNat ∧
    winAmount 100 (3 / 10) = 30 := by
  have h := c6_payout_floor (⟨0, [⟨100, false⟩], true⟩ : GameState) 0 250
    ⟨100, false⟩ rfl rfl
  exact ⟨h.1, h.2.2⟩

/-- C7: the landed flag is a single-use idempotency guard.  The first
terminal-sensor collision event for a not-yet-landed ball flips the flag
to true; once the flag is set, any further collision events for that ball
— however many the integrator reports — leave the whole state unchanged,
so settlement runs at most once per ball. -/
theorem c7_landed_once (s : GameState) (i : ℕ) (x : ℚ) (b : BallState)
    (hb : s.balls.get? i = some b) :
    (b.landed = false →
      (step s (.land i x)).balls.get? i = some { bet := b.bet, landed := true }) ∧
    (b.landed = true → ∀ xs : List ℚ,
      List.foldl step s (xs.map (GameEvent.land i)) = s) := by
  constructor
  · intro hl
    rw [step_land_eval s i x b hb hl]
    show (s.balls.set i { bet := b.bet, landed := true }).get? i = _
    rw [List.get?_set_eq, hb]
    rfl
  · intro hl xs
    have hstep : ∀ y : ℚ, step s (.land i y) = s := by
      intro y
      show landStep s i y = s
      rw [landStep, hb]
      simp [hl]
    induction xs with
    | nil => rfl
    | cons y ys ih => rw [List.map_cons, List.foldl_cons, hstep y, ih]

/-- C7 witness: the first sensor event flips the flag of a fresh ball, and
two further sensor events on an already-landed ball change nothing. -/
theorem c7_landed_once_witness :
    (step (⟨0, [⟨50, false⟩], false⟩ : GameState) (.land 0 7)).balls.get? 0
      = some ⟨50, true⟩ ∧
    List.foldl step (⟨0, [⟨50, true⟩], false⟩ : GameState)
      (([1, 2] : List ℚ).map (GameEvent.land 0)) = ⟨0, [⟨50, true⟩], false⟩ :=
  ⟨(c7_landed_once (⟨0, [⟨50, false⟩], false⟩ : GameState) 0 7 ⟨50, false⟩ rfl).1 rfl,
   (c7_landed_once (⟨0, [⟨50, true⟩], false⟩ : GameState) 0 9 ⟨50, true⟩ rfl).2 rfl [1, 2]⟩

/-- C8: awarding n and then deducting n restores the balance and the
deduct reports success; deducting any amount strictly above the balance
reports failure and leaves the balance unchanged. -/
theorem c8_ledger_roundtrip (b n : ℕ) (hn : n ≤ b) (amt : ℚ)
    (hamt : (b : ℚ) < amt) :
    deduct (n : ℚ) (award (n : ℚ) b) = (true, b) ∧ deduct amt b = (false, b) := by
  refine ⟨?_, deduct_insufficient amt b hamt⟩
  rw [award_natCast, deduct_le n (b + n) (by omega)]
  simp

/-- C8 witness: award 40 then deduct 40 on balance 100; deduct 250 on
balance 100. -/
theorem c8_ledger_roundtrip_witness :
    deduct ((40 : ℕ) : ℚ) (award ((40 : ℕ) : ℚ) 100) = (true, 100) ∧
    deduct 250 100 = (false, 100) :=
  c8_ledger_roundtrip 100 40 (by norm_num) 250 (by norm_num)

/-- C9: setBalance stores and returns the floor of the amount clamped to
zero, emits exactly one balance-changed notification carrying the stored
value, and the stored value as an integer is exactly max(0, floor amount),
hence every ledger write leaves a non-negative integer balance. -/
theorem c9_setBalance_clamp (amount : ℚ) :
    (setBalanceRun amount).1 = ⌊amount⌋.toNat ∧
    (setBalanceRun amount).2 = [(setBalanceRun amount).1] ∧
    (setBalanceRun amount).2.length = 1 ∧
    ((⌊amount⌋.toNat : ℤ) = max 0 ⌊amount⌋) := by
  refine ⟨?_, rfl, rfl, ?_⟩
  · show setBalanceValue amount = _
    rw [setBalanceValue]
    omega
  · rw [Int.toNat_eq_max]
    exact max_comm _ _

/-- C10 counterexample: the claim quantifies over every strictly negative
amount and asserts the balance strictly increases.  For the fractional
amount -1/2 on balance 100, deduct returns true but the new balance is
floor(100 + 1/2) = 100: unchanged, not increased. -/
theorem c10_negative_deduct_counterexample :
    deduct (-(1 / 2) : ℚ) 100 = (true, 100) ∧
    ¬ (100 < (deduct (-(1 / 2) : ℚ) 100).2) := by
  have harg : (((100 : ℕ) : ℚ) - -(1 / 2)) = 201 / 2 := by push_cast; norm_num
  have hfloor : ⌊(201 / 2 : ℚ)⌋ = 100 := by
    rw [Int.floor_eq_iff]
    norm_num
  have h : deduct (-(1 / 2) : ℚ) 100 = (true, 100) := by
    rw [deduct, if_neg (by norm_num), harg, setBalanceValue, hfloor]
    decide
  rw [h]
  exact ⟨rfl, by norm_num⟩

/-- C10 (amended): for every strictly negative integer amount n, deduct n
passes the guard (the non-negative balance is never below n), returns
true, and sets the balance to balance + (-n), a strict increase — the
code validates no sign; restricted to integer amounts because a fractional
negative amount above -1 is erased by the floor on write. -/
theorem c10_negative_deduct_amended (n : ℤ) (hn : n < 0) (b : ℕ) :
    (deduct (n : ℚ) b).1 = true ∧ b < (deduct (n : ℚ) b).2 ∧
    (deduct (n : ℚ) b).2 = b + (-n).toNat := by
  have hno : ¬ ((b : ℚ) < (n : ℚ)) := by
    push_neg
    have h1 : (n : ℚ) ≤ 0 := by exact_mod_cast hn.le
    have h2 : (0 : ℚ) ≤ (b : ℚ) := Nat.cast_nonneg b
    linarith
  have hpos : (0 : ℤ) ≤ -n := by omega
  have hc : (((-n).toNat : ℕ) : ℚ) = -(n : ℚ) := by
    have h3 := Int.toNat_of_nonneg hpos
    exact_mod_cast h3
  have harg : ((b : ℚ) - (n : ℚ)) = ((b + (-n).toNat : ℕ) : ℚ) := by
    push_cast
    rw [hc]
    ring
  rw [deduct, if_neg hno, harg, setBalanceValue_natCast]
  refine ⟨rfl, ?_, rfl⟩
  omega

/-- C10 witness: deduct of -5 on balance 100 returns true and yields 105. -/
theorem c10_negative_deduct_amended_witness :
    (deduct ((-5 : ℤ) : ℚ) 100).1 = true ∧
    100 < (deduct ((-5 : ℤ) : ℚ) 100).2 ∧
    (deduct ((-5 : ℤ) : ℚ) 100).2 = 100 + (-(-5 : ℤ)).toNat :=
  c10_negative_deduct_amended (-5) (by norm_num) 100

end GameHub
